import Mathlib

/-!
Shallow embedding of the tic-tac-toe game logic of src/src/App.tsx.

The source file holds two variants of the component code.  Both variants have
identical calculateWinner, calculateTurns, handlePlay, jumpTo and handleClick
logic, while calculateStatus differs between the first variant (lines 62-66)
and the second variant (lines 256-260).  Cells are JavaScript values of type
string-or-null; truthiness of such a value (null and the empty string are
falsy) is modelled explicitly, and the move counter is a natural number
(falsy exactly when it is zero).
-/

/-- A cell value: a JavaScript string or null. -/
abbrev Cell := Option String

/-- A board: a JavaScript array of cells (nine cells in normal use). -/
abbrev Board := List Cell

/-- JavaScript truthiness of a string-or-null value: null and the empty
string are falsy, every other string is truthy. -/
def jsTruthy : Cell → Bool
  | none => false
  | some s => s != ""

/-- The array read squares[i]; a read outside the array yields a falsy
value (undefined), modelled as none. -/
def cellAt (squares : Board) (i : Nat) : Cell :=
  (squares.get? i).getD none

/-- The eight winning lines (rows, columns, diagonals), lines 38-47 and
232-241 of the source. -/
def winningLines : List (Nat × Nat × Nat) :=
  [(0, 1, 2), (3, 4, 5), (6, 7, 8), (0, 3, 6), (1, 4, 7), (2, 5, 8), (0, 4, 8), (2, 4, 6)]

/-- The loop body test of calculateWinner, line 51:
squares[a] && squares[a] === squares[b] && squares[a] === squares[c]. -/
def lineWins (squares : Board) : Nat × Nat × Nat → Bool
  | (a, b, c) =>
    jsTruthy (cellAt squares a) && (cellAt squares a == cellAt squares b) &&
      (cellAt squares a == cellAt squares c)

/-- The search loop of calculateWinner, lines 49-54, returning squares[a]
for the first line that passes the test. -/
def winnerLoop (squares : Board) : List (Nat × Nat × Nat) → Cell
  | [] => none
  | l :: rest => if lineWins squares l then cellAt squares l.1 else winnerLoop squares rest

/-- calculateWinner, lines 37-56 (the second variant at lines 243-250 runs
the same test over the same lines in the same order). -/
def calculateWinner (squares : Board) : Cell :=
  winnerLoop squares winningLines

/-- calculateTurns, lines 58-60: the length of the array filtered to the
cells that are not null. -/
def calculateTurns (squares : Board) : Nat :=
  (squares.filter fun sq => sq != none).length

/-- calculateStatus of the first variant, lines 62-66.  The first guard is
the JavaScript test (!winner && !turns), and !turns holds exactly when the
number turns is zero. -/
def calculateStatus (winner : Cell) (turns : Nat) (player : String) : String :=
  if !jsTruthy winner && turns == 0 then "Draw"
  else if jsTruthy winner then "Winner: " ++ winner.getD ""
  else "Next player: " ++ player

/-- calculateStatus of the second variant, lines 256-260, which tests
turns === 9 for the draw case. -/
def calculateStatus2 (winner : Cell) (turns : Nat) (player : String) : String :=
  if jsTruthy winner then "Winner: " ++ winner.getD ""
  else if turns == 9 then "Draw"
  else "Next player: " ++ player

/-- The store state: the history of board snapshots and the index of the
currently viewed move. -/
structure GameState where
  history : List Board
  currentMove : Nat
deriving DecidableEq

/-- setHistory applied to a direct value, lines 11-22: it replaces the
history field only. -/
def setHistoryVal (s : GameState) (nextHistory : List Board) : GameState :=
  ⟨nextHistory, s.currentMove⟩

/-- setCurrentMove applied to a direct value, lines 23-32: it replaces the
currentMove field only. -/
def setCurrentMoveVal (s : GameState) (nextCurrentMove : Nat) : GameState :=
  ⟨s.history, nextCurrentMove⟩

/-- The initial store state, lines 7-8: one empty nine-cell board and
currentMove zero. -/
def initState : GameState :=
  ⟨[List.replicate 9 (none : Cell)], 0⟩

/-- handlePlay, lines 150-154: truncate the history to indices
0..currentMove, append the played board, and set currentMove to the new
last index. -/
def handlePlay (s : GameState) (nextSquares : Board) : GameState :=
  let nextHistory := s.history.take (s.currentMove + 1) ++ [nextSquares]
  setCurrentMoveVal (setHistoryVal s nextHistory) (nextHistory.length - 1)

/-- jumpTo, lines 156-158: set currentMove only. -/
def jumpTo (s : GameState) (nextMove : Nat) : GameState :=
  setCurrentMoveVal s nextMove

/-- The player derivation, lines 147 and 107: marker X exactly when the
current move index is even. -/
def playerOf (s : GameState) : String :=
  if s.currentMove % 2 == 0 then "X" else "O"

/-- history[currentMove], line 148: the displayed board. -/
def currentSquares (s : GameState) : Board :=
  (s.history.get? s.currentMove).getD []

/-- handleClick, lines 110-115, composed with onPlay = handlePlay from line
165: the state transition performed by a click on cell i.  The click is
ignored when the clicked cell or the computed winner is truthy; otherwise a
copy of the displayed board with cell i set to the active player is
played. -/
def clickSquare (s : GameState) (i : Nat) : GameState :=
  if jsTruthy (cellAt (currentSquares s) i) || jsTruthy (calculateWinner (currentSquares s)) then
    s
  else
    handlePlay s ((currentSquares s).set i (some (playerOf s)))

/-- Written from the specification wording for the winner function: the
test that a line has its three cells holding the same non-empty marker. -/
def lineFilledSame (squares : Board) : Nat × Nat × Nat → Bool
  | (a, b, c) =>
    match cellAt squares a with
    | some m => m != "" && cellAt squares b == some m && cellAt squares c == some m
    | none => false

/-- Written from the specification wording: the marker occupying all three
cells of the first matching triple in the fixed enumeration order, or none
if no triple matches. -/
def winnerSpec (squares : Board) : Cell :=
  match winningLines.find? (lineFilledSame squares) with
  | some l => cellAt squares l.1
  | none => none

/-- Boards whose cells hold only the empty value or one of the two markers:
the Cell data model of the specification. -/
def validBoard (squares : Board) : Bool :=
  squares.all fun c => c == none || c == some "X" || c == some "O"

/-- The store invariant: a nonempty history and an in-range current move. -/
def StoreInv (s : GameState) : Prop :=
  0 < s.history.length ∧ s.currentMove < s.history.length

/-- A UI-driven operation: a click on one of the nine cells, or a jump to an
index enumerated from the current history list. -/
inductive UIStep : GameState → GameState → Prop where
  | click (s : GameState) (i : Nat) : i < 9 → UIStep s (clickSquare s i)
  | jump (s : GameState) (i : Nat) : i < s.history.length → UIStep s (jumpTo s i)

/-- The empty board. -/
def emptyBoard : Board := List.replicate 9 (none : Cell)

/-- A fully filled board with no three-in-a-row. -/
def drawBoard : Board :=
  [some "X", some "O", some "X", some "X", some "O", some "O", some "O", some "X", some "X"]

/-- A board in which marker X fills the top row. -/
def xRowBoard : Board :=
  [some "X", some "X", some "X", none, none, none, none, none, none]

/-- A board in which marker X fills the top row and marker O fills the
middle row. -/
def doubleBoard : Board :=
  [some "X", some "X", some "X", some "O", some "O", some "O", none, none, none]

/-! Helper lemmas about the winner computation. -/

theorem beq_swap {α : Type} [BEq α] [LawfulBEq α] (a b : α) : (a == b) = (b == a) := by
  by_cases h : a = b
  · subst h; rfl
  · have h1 : (a == b) = false := beq_eq_false_iff_ne.mpr h
    have h2 : (b == a) = false := beq_eq_false_iff_ne.mpr (Ne.symm h)
    rw [h1, h2]

theorem lineWins_of_cells {squares : Board} {a b c : Nat} {m : String} (hm : m ≠ "")
    (ha : cellAt squares a = some m) (hb : cellAt squares b = some m)
    (hc : cellAt squares c = some m) : lineWins squares (a, b, c) = true := by
  simp [lineWins, ha, hb, hc, jsTruthy, hm]

theorem cells_of_lineWins {squares : Board} {a b c : Nat}
    (h : lineWins squares (a, b, c) = true) :
    ∃ m, m ≠ "" ∧ cellAt squares a = some m ∧ cellAt squares b = some m ∧
      cellAt squares c = some m := by
  revert h
  cases hc : cellAt squares a with
  | none => simp [lineWins, hc, jsTruthy]
  | some m =>
    intro h
    simp only [lineWins, hc, jsTruthy, Bool.and_eq_true, bne_iff_ne, ne_eq,
      beq_iff_eq] at h
    exact ⟨m, h.1.1, rfl, h.1.2.symm, h.2.symm⟩

theorem winnerLoop_ne_none {squares : Board} :
    ∀ (ls : List (Nat × Nat × Nat)) (l : Nat × Nat × Nat), l ∈ ls →
      lineWins squares l = true → winnerLoop squares ls ≠ none := by
  intro ls
  induction ls with
  | nil => intro l h; simp at h
  | cons hd tl ih =>
    intro l hmem hw
    by_cases hh : lineWins squares hd = true
    · obtain ⟨a, b, c⟩ := hd
      obtain ⟨m, _, ha, -, -⟩ := cells_of_lineWins hh
      simp [winnerLoop, hh, ha]
    · have hmem' : l ∈ tl := by
        rcases List.mem_cons.mp hmem with h | h
        · exact absurd (h ▸ hw) hh
        · exact h
      simpa [winnerLoop, hh] using ih l hmem' hw

theorem winnerLoop_eq_some {squares : Board} :
    ∀ (ls : List (Nat × Nat × Nat)) (m : String), winnerLoop squares ls = some m →
      ∃ l ∈ ls, lineWins squares l = true ∧ cellAt squares l.1 = some m := by
  intro ls
  induction ls with
  | nil => intro m h; simp [winnerLoop] at h
  | cons hd tl ih =>
    intro m h
    by_cases hh : lineWins squares hd = true
    · refine ⟨hd, List.mem_cons_self hd tl, hh, ?_⟩
      simpa [winnerLoop, hh] using h
    · obtain ⟨l, hl, hw, hc⟩ := ih m (by simpa [winnerLoop, hh] using h)
      exact ⟨l, List.mem_cons_of_mem _ hl, hw, hc⟩

theorem calculateWinner_some {squares : Board} {m : String}
    (h : calculateWinner squares = some m) :
    m ≠ "" ∧ ∃ l ∈ winningLines, cellAt squares l.1 = some m ∧
      cellAt squares l.2.1 = some m ∧ cellAt squares l.2.2 = some m := by
  obtain ⟨l, hl, hw, hc⟩ := winnerLoop_eq_some winningLines m h
  obtain ⟨a, b, c⟩ := l
  obtain ⟨m', hm', ha, hb, hcc⟩ := cells_of_lineWins hw
  have hmm : m' = m := by
    have := ha.symm.trans hc
    exact Option.some.injEq m' m ▸ this
  subst hmm
  exact ⟨hm', ⟨(a, b, c), hl, ha, hb, hcc⟩⟩

theorem jsTruthy_calculateWinner {squares : Board}
    (h : calculateWinner squares ≠ none) :
    jsTruthy (calculateWinner squares) = true := by
  cases hw : calculateWinner squares with
  | none => exact absurd hw h
  | some m =>
    have := (calculateWinner_some hw).1
    simp [jsTruthy, this]

theorem lineWins_eq_lineFilledSame (squares : Board) (l : Nat × Nat × Nat) :
    lineWins squares l = lineFilledSame squares l := by
  obtain ⟨a, b, c⟩ := l
  cases hc : cellAt squares a with
  | none => simp [lineWins, lineFilledSame, hc, jsTruthy]
  | some m =>
    simp only [lineWins, lineFilledSame, hc, jsTruthy]
    rw [beq_swap (some m) (cellAt squares b), beq_swap (some m) (cellAt squares c)]

theorem winnerLoop_eq_find (squares : Board) :
    ∀ ls : List (Nat × Nat × Nat), winnerLoop squares ls =
      (match ls.find? (lineFilledSame squares) with
        | some l => cellAt squares l.1
        | none => none) := by
  intro ls
  induction ls with
  | nil => simp [winnerLoop, List.find?]
  | cons hd tl ih =>
    by_cases hh : lineFilledSame squares hd = true
    · rw [List.find?_cons_of_pos _ hh]
      simp [winnerLoop, lineWins_eq_lineFilledSame squares hd, hh]
    · rw [List.find?_cons_of_neg _ (by simp [hh])]
      simp only [winnerLoop, lineWins_eq_lineFilledSame squares hd, hh, if_false,
        Bool.false_eq_true, ite_false]
      exact ih

/-! Helper lemmas about boards and the store. -/

theorem cellAt_mem :
    ∀ (squares : Board) (i : Nat), cellAt squares i ≠ none →
      cellAt squares i ∈ squares := by
  intro squares
  induction squares with
  | nil => intro i h; simp [cellAt] at h
  | cons hd tl ih =>
    intro i h
    cases i with
    | zero => simp [cellAt]
    | succ i =>
      have hstep : cellAt (hd :: tl) (i + 1) = cellAt tl i := by simp [cellAt]
      rw [hstep] at h ⊢
      exact List.mem_cons_of_mem _ (ih i h)

theorem cellAt_set_ne :
    ∀ (squares : Board) (i j : Nat) (v : Cell), j ≠ i →
      cellAt (squares.set i v) j = cellAt squares j := by
  intro squares
  induction squares with
  | nil => intro i j v _; rfl
  | cons hd tl ih =>
    intro i j v h
    cases i with
    | zero =>
      cases j with
      | zero => exact absurd rfl h
      | succ j => simp [cellAt, List.set]
    | succ i =>
      cases j with
      | zero => simp [cellAt, List.set]
      | succ j =>
        have := ih i j v (by omega)
        simpa [cellAt, List.set] using this

theorem cellAt_set_self :
    ∀ (squares : Board) (i : Nat) (v : Cell), i < squares.length →
      cellAt (squares.set i v) i = v := by
  intro squares
  induction squares with
  | nil => intro i v h; simp at h
  | cons hd tl ih =>
    intro i v h
    cases i with
    | zero => simp [cellAt, List.set]
    | succ i => simpa [cellAt, List.set] using ih i v (by simpa using h)

theorem inv_handlePlay (s : GameState) (b : Board) : StoreInv (handlePlay s b) := by
  simp only [StoreInv, handlePlay, setHistoryVal, setCurrentMoveVal, List.length_append,
    List.length_cons, List.length_nil]
  omega

/-! The claims. -/

/-- Claim C1: for a board with no winner and all nine cells filled, the
specified status is Draw.  The second variant of calculateStatus does
return Draw there, but the first variant returns the next-player text,
because its draw guard tests that turns is zero instead of nine; the draw
board witnesses the failing input. -/
theorem status_draw_full_board_bug :
    calculateWinner drawBoard = none ∧ calculateTurns drawBoard = 9 ∧
    (∀ p : String, calculateStatus none 9 p = "Next player: " ++ p) ∧
    (∀ p : String, calculateStatus2 none 9 p = "Draw") := by
  exact ⟨by decide, by decide, fun p => rfl, fun p => rfl⟩

/-- Claim C2: with no winner and fewer than nine filled cells the specified
status is the next-player text.  The second variant of calculateStatus
satisfies this for every turns value below nine, but the first variant
returns Draw on the completely empty board (turns = 0), the failing
input. -/
theorem status_next_player_empty_board_bug :
    (calculateWinner emptyBoard = none ∧ calculateTurns emptyBoard = 0 ∧
      (∀ p : String, calculateStatus none 0 p = "Draw") ∧
      (∀ p : String, calculateStatus2 none 0 p = "Next player: " ++ p)) ∧
    (∀ (t : Nat) (p : String), t < 9 → calculateStatus2 none t p = "Next player: " ++ p) := by
  refine ⟨⟨by decide, by decide, fun p => rfl, fun p => rfl⟩, ?_⟩
  intro t p ht
  have h9 : (t == 9) = false := by
    simp only [beq_eq_false_iff_ne, ne_eq]
    omega
  simp [calculateStatus2, jsTruthy, h9]

/-- Witness for claim C2 at turns three. -/
theorem status_next_player_witness : calculateStatus2 none 3 "X" = "Next player: X" :=
  status_next_player_empty_board_bug.2 3 "X" (by decide)

/-- Claim C3: handlePlay truncates the history to the first currentMove + 1
entries, appends the played board, and sets currentMove to the new last
index; after five moves, a jump to the start and one play, the history has
length two. -/
theorem handlePlay_truncate_append :
    (∀ (H : List Board) (m : Nat) (b : Board), m < H.length →
      (handlePlay ⟨H, m⟩ b).history = H.take (m + 1) ++ [b] ∧
      (handlePlay ⟨H, m⟩ b).currentMove = m + 1) ∧
    (∀ (H : List Board) (b : Board), H.length = 6 →
      ((handlePlay (jumpTo ⟨H, 5⟩ 0) b).history).length = 2) := by
  constructor
  · intro H m b hm
    refine ⟨rfl, ?_⟩
    show (H.take (m + 1) ++ [b]).length - 1 = m + 1
    simp only [List.length_append, List.length_take, List.length_cons, List.length_nil]
    omega
  · intro H b h6
    show (H.take (0 + 1) ++ [b]).length = 2
    simp only [List.length_append, List.length_take, List.length_cons, List.length_nil, h6]
    omega

/-- Witness for claim C3: one play from the initial singleton history. -/
theorem handlePlay_truncate_append_witness :
    (handlePlay ⟨[emptyBoard], 0⟩ drawBoard).history = [emptyBoard, drawBoard] ∧
    (handlePlay ⟨[emptyBoard], 0⟩ drawBoard).currentMove = 1 := by
  have h := handlePlay_truncate_append.1 [emptyBoard] 0 drawBoard (by decide)
  exact ⟨h.1.trans (by decide), h.2⟩

/-- Claim C5: jumpTo leaves the history unchanged and only replaces
currentMove with the given index. -/
theorem jumpTo_only_changes_currentMove :
    ∀ (s : GameState) (i : Nat),
      (jumpTo s i).history = s.history ∧ (jumpTo s i).currentMove = i :=
  fun _ _ => ⟨rfl, rfl⟩

/-- Claim C4 counterexample: the double board holds the winning triple
(3, 4, 5) filled with marker O, yet calculateWinner returns marker X,
because the triple (0, 1, 2) filled with X comes first in the fixed
enumeration order. -/
theorem winner_first_match_cex :
    (3, 4, 5) ∈ winningLines ∧
    cellAt doubleBoard 3 = some "O" ∧ cellAt doubleBoard 4 = some "O" ∧
    cellAt doubleBoard 5 = some "O" ∧
    calculateWinner doubleBoard = some "X" ∧ calculateWinner doubleBoard ≠ some "O" :=
  ⟨by decide, by decide, by decide, by decide, by decide, by decide⟩

/-- Claim C4 amended: calculateWinner returns the marker of the first
triple in the fixed enumeration whose three cells hold the same non-empty
marker, or none; consequently a board containing a winning triple filled
with a marker yields a non-none winner, and every returned marker does fill
one of the eight triples. -/
theorem winner_first_match_amended :
    (∀ squares : Board, calculateWinner squares = winnerSpec squares) ∧
    (∀ (squares : Board) (a b c : Nat) (m : String), (a, b, c) ∈ winningLines → m ≠ "" →
      cellAt squares a = some m → cellAt squares b = some m → cellAt squares c = some m →
      calculateWinner squares ≠ none) ∧
    (∀ (squares : Board) (m : String), calculateWinner squares = some m →
      m ≠ "" ∧ ∃ l ∈ winningLines, cellAt squares l.1 = some m ∧
        cellAt squares l.2.1 = some m ∧ cellAt squares l.2.2 = some m) := by
  refine ⟨?_, ?_, ?_⟩
  · intro squares
    exact winnerLoop_eq_find squares winningLines
  · intro squares a b c m hmem hm ha hb hc
    exact winnerLoop_ne_none winningLines (a, b, c) hmem (lineWins_of_cells hm ha hb hc)
  · intro squares m hw
    exact calculateWinner_some hw

/-- Witness for claim C4 on the board with X filling the top row. -/
theorem winner_first_match_witness : calculateWinner xRowBoard ≠ none :=
  winner_first_match_amended.2.1 xRowBoard 0 1 2 "X" (by decide) (by decide) (by decide)
    (by decide) (by decide)

/-- Claim C6: a click on an occupied cell of a valid displayed board, or a
click when the displayed board has a winner, leaves the whole state
unchanged. -/
theorem click_ignored_noop :
    ∀ (s : GameState) (i : Nat), validBoard (currentSquares s) = true →
      (cellAt (currentSquares s) i ≠ none ∨ calculateWinner (currentSquares s) ≠ none) →
      clickSquare s i = s := by
  intro s i hv hor
  have hguard : (jsTruthy (cellAt (currentSquares s) i) ||
      jsTruthy (calculateWinner (currentSquares s))) = true := by
    rcases hor with hocc | hwin
    · have hmem := cellAt_mem (currentSquares s) i hocc
      have hval := List.all_eq_true.mp hv _ hmem
      simp only [Bool.or_eq_true, beq_iff_eq] at hval
      rcases hval with (h | h) | h
      · exact absurd h hocc
      · have ht : jsTruthy (cellAt (currentSquares s) i) = true := by rw [h]; decide
        simp [ht]
      · have ht : jsTruthy (cellAt (currentSquares s) i) = true := by rw [h]; decide
        simp [ht]
    · simp [jsTruthy_calculateWinner hwin]
  simp [clickSquare, hguard]

/-- Witness for claim C6: clicking the occupied top-left cell of the drawn
board changes nothing. -/
theorem click_ignored_noop_witness :
    validBoard (currentSquares ⟨[drawBoard], 0⟩) = true ∧
    clickSquare ⟨[drawBoard], 0⟩ 0 = ⟨[drawBoard], 0⟩ :=
  ⟨by decide, click_ignored_noop ⟨[drawBoard], 0⟩ 0 (by decide) (Or.inl (by decide))⟩

/-- Claim C7: for every non-none value the winner function can return, both
status functions produce the winner text, for all move counts and players;
in particular marker X filling the top row gives winner X and the status
text Winner: X. -/
theorem status_winner_text :
    (∀ (b : Board) (w : String) (t : Nat) (p : String), calculateWinner b = some w →
      calculateStatus (some w) t p = "Winner: " ++ w ∧
      calculateStatus2 (some w) t p = "Winner: " ++ w) ∧
    (calculateWinner xRowBoard = some "X" ∧ calculateTurns xRowBoard = 3 ∧
      calculateStatus (some "X") 3 "O" = "Winner: X" ∧
      calculateStatus2 (some "X") 3 "O" = "Winner: X") := by
  constructor
  · intro b w t p hw
    have hne : w ≠ "" := (calculateWinner_some hw).1
    have ht : jsTruthy (some w) = true := by simp [jsTruthy, hne]
    constructor
    · simp [calculateStatus, ht]
    · simp [calculateStatus2, ht]
  · exact ⟨by decide, by decide, by decide, by decide⟩

/-- Witness for claim C7 on the board with X filling the top row. -/
theorem status_winner_text_witness : calculateStatus (some "X") 0 "X" = "Winner: X" :=
  (status_winner_text.1 xRowBoard "X" 0 "X" (by decide)).1

/-- Claim C8: a click on an empty cell of the displayed board with no winner
plays a board equal to the displayed one everywhere except at the clicked
cell, which now holds the active player marker, X on even and O on odd
current moves; clicking cell four of the initial empty board produces the
board with X at cell four, currentMove one, and the status Next player: O
under both status variants. -/
theorem click_places_marker :
    (∀ (s : GameState) (i : Nat),
      cellAt (currentSquares s) i = none → calculateWinner (currentSquares s) = none →
      clickSquare s i = handlePlay s ((currentSquares s).set i (some (playerOf s))) ∧
      (i < (currentSquares s).length →
        cellAt ((currentSquares s).set i (some (playerOf s))) i = some (playerOf s)) ∧
      (∀ j, j ≠ i → cellAt ((currentSquares s).set i (some (playerOf s))) j =
        cellAt (currentSquares s) j) ∧
      playerOf s = (if s.currentMove % 2 = 0 then "X" else "O")) ∧
    (clickSquare initState 4 =
      ⟨[emptyBoard, [none, none, none, none, some "X", none, none, none, none]], 1⟩ ∧
      currentSquares (clickSquare initState 4) =
        [none, none, none, none, some "X", none, none, none, none] ∧
      playerOf (clickSquare initState 4) = "O" ∧
      calculateStatus (calculateWinner (currentSquares (clickSquare initState 4)))
        (calculateTurns (currentSquares (clickSquare initState 4)))
        (playerOf (clickSquare initState 4)) = "Next player: O" ∧
      calculateStatus2 (calculateWinner (currentSquares (clickSquare initState 4)))
        (calculateTurns (currentSquares (clickSquare initState 4)))
        (playerOf (clickSquare initState 4)) = "Next player: O") := by
  constructor
  · intro s i hc hw
    have hguard : (jsTruthy (cellAt (currentSquares s) i) ||
        jsTruthy (calculateWinner (currentSquares s))) = false := by
      simp [hc, hw, jsTruthy]
    refine ⟨by simp [clickSquare, hguard], fun hlen => cellAt_set_self _ _ _ hlen,
      fun j hj => cellAt_set_ne _ _ _ _ hj, ?_⟩
    by_cases he : s.currentMove % 2 = 0
    · simp [playerOf, he]
    · simp [playerOf, he, beq_iff_eq]
  · exact ⟨by decide, by decide, by decide, by decide, by decide⟩

/-- Witness for claim C8: clicking cell four of the initial state. -/
theorem click_places_marker_witness :
    clickSquare initState 4 =
      handlePlay initState ((currentSquares initState).set 4 (some (playerOf initState))) :=
  (click_places_marker.1 initState 4 (by decide) (by decide)).1

/-- Claim C9: from the initial state, every sequence of UI-driven clicks and
history jumps preserves a nonempty history and an in-range current move. -/
theorem ui_ops_preserve_inv :
    (∀ s t : GameState, StoreInv s → UIStep s t → StoreInv t) ∧
    (∀ t : GameState, Relation.ReflTransGen UIStep initState t → StoreInv t) := by
  have hstep : ∀ s t : GameState, StoreInv s → UIStep s t → StoreInv t := by
    intro s t hs hst
    cases hst with
    | click i h =>
      by_cases hg : (jsTruthy (cellAt (currentSquares s) i) ||
          jsTruthy (calculateWinner (currentSquares s))) = true
      · simpa [clickSquare, hg] using hs
      · have hg' : (jsTruthy (cellAt (currentSquares s) i) ||
            jsTruthy (calculateWinner (currentSquares s))) = false := by
          simpa using hg
        simpa [clickSquare, hg'] using
          inv_handlePlay s ((currentSquares s).set i (some (playerOf s)))
    | jump i h =>
      constructor
      · show 0 < s.history.length
        omega
      · exact h
  refine ⟨hstep, ?_⟩
  intro t ht
  induction ht with
  | refl =>
    refine ⟨?_, ?_⟩ <;> simp [initState]
  | tail hab hbc ih => exact hstep _ _ ih hbc

/-- Witness for claim C9: the invariant holds at the initial state, reached
by the empty sequence of operations. -/
theorem ui_ops_preserve_inv_witness : StoreInv initState :=
  ui_ops_preserve_inv.2 initState Relation.ReflTransGen.refl

/-- Claim C10 counterexample: at no winner, zero turns and player X, the
first variant of calculateStatus returns Draw while the second returns the
next-player text, so the two definitions are not extensionally equal. -/
theorem status_variants_differ_cex :
    calculateStatus none 0 "X" = "Draw" ∧
    calculateStatus2 none 0 "X" = "Next player: X" ∧
    calculateStatus none 0 "X" ≠ calculateStatus2 none 0 "X" :=
  ⟨rfl, rfl, by decide⟩

/-- Claim C10 amended: the two variants of calculateStatus agree at every
input whose winner argument is truthy, and at every winnerless input whose
turns value is neither zero nor nine. -/
theorem status_variants_agree :
    ∀ (w : Cell) (t : Nat) (p : String), jsTruthy w = true ∨ (t ≠ 0 ∧ t ≠ 9) →
      calculateStatus w t p = calculateStatus2 w t p := by
  intro w t p h
  rcases h with hw | ⟨h0, h9⟩
  · simp [calculateStatus, calculateStatus2, hw]
  · have e0 : (t == 0) = false := beq_eq_false_iff_ne.mpr h0
    have e9 : (t == 9) = false := beq_eq_false_iff_ne.mpr h9
    cases hw : jsTruthy w
    · simp [calculateStatus, calculateStatus2, hw, e0, e9]
    · simp [calculateStatus, calculateStatus2, hw]

/-- Witness for claim C10 with a truthy winner argument. -/
theorem status_variants_agree_witness :
    calculateStatus (some "X") 0 "O" = calculateStatus2 (some "X") 0 "O" :=
  status_variants_agree (some "X") 0 "O" (Or.inl (by decide))
